import Mathlib

/-!
Verification development for the Discord scraper repository
(`data.py` and `discord_scraper.py`).

The embedding translates the progress-tracking / pagination core:
the message data model, the `MongoMessageConverter` / `SimpleMessageConverter`
outputs, the `MongoStore` and `BasicStore` persistence layers, the
`DataManager` frontier logic, and the `Scraper` driver loops
(`scrape_all_channels`, `_scrape_channel`, `_scrape_unseen_only`).

Modelling conventions:
* Discord snowflake identifiers are `Nat`; wall-clock times (`time.time()`)
  are `Int` values passed explicitly as a `now` parameter.
* Python `dict`s with optionally-present keys are structures whose fields
  are wrapped in `Option` (`none` = key absent); the `.get(k, default)`
  reads used at the call sites are `Option.getD`.
* Mongo collections are Lean lists of documents; `update_one`/`UpdateOne`
  with `upsert=True` is `upsertBy` (update the first matching document,
  else append a fresh one), `find_one` is `List.find?`.
* Python exceptions (`IndexError` from `messages[-1]`, a raising message
  conversion) are modelled by the `Res` result type, whose `exn`
  constructor carries the `DataManager` state at the moment of the raise.
* Payload fields that no part of the core logic reads (attachment and
  embed lists, `channel_type`, and the recursively embedded thread
  sub-stream) are omitted from the converted records; a message whose
  conversion would raise is marked with a `malformed` flag.
* The unbounded `while` loop of `scrape_all_channels` is given an explicit
  fuel parameter; `none` as a result means the loop is still running after
  `fuel` iterations.
-/

/-- Message types from the source's `MessageType` enum; only the
`thread_created` structural marker is distinguished by the code. -/
inductive MessageType where
  | default
  | reply
  | thread_created
deriving DecidableEq

/-- A raw Discord message as consumed by the scraper: the fields of the
external `Message` object that the core reads.  `malformed` marks a message
whose attribute access raises during conversion (a `ConversionError`). -/
structure Message where
  message_id : Nat
  channel_id : Nat
  mtype : MessageType
  author_id : Nat
  content : String
  created_at : Int
  edited_at : Option Int
  reply_to : Option Nat
  malformed : Bool
deriving DecidableEq

/-- The `"$set"` part of the update document built by
`MongoMessageConverter.convert_message`.  `edited_content` is present
exactly when the message has an `edited_at` timestamp (the source adds the
key only in that case). -/
structure MongoSetFields where
  channel_id : Nat
  message_id : Nat
  message_type : MessageType
  timestamp : Int
  edited_timestamp : Option Int
  author_id : Nat
  reply_to : Option Nat
  edited_content : Option String
deriving DecidableEq

/-- The full updater returned by `MongoMessageConverter.convert_message`:
a `"$set"` part plus the `"$setOnInsert"` fields (`message_content`, and a
`processed` flag that is always `False`). -/
structure MongoUpdater where
  setPart : MongoSetFields
  soi_message_content : String
deriving DecidableEq

/-- `MongoMessageConverter.convert_message` (thread argument `None`;
the embedded sub-stream is not modelled, no claim concerns it). -/
def convertMessage (m : Message) : MongoUpdater :=
  { setPart :=
      { channel_id := m.channel_id
        message_id := m.message_id
        message_type := m.mtype
        timestamp := m.created_at
        edited_timestamp := m.edited_at
        author_id := m.author_id
        reply_to := m.reply_to
        edited_content := if m.edited_at.isSome then some m.content else none }
    soi_message_content := m.content }

/-- The plain record built by `SimpleMessageConverter.convert_message`
(thread argument `None`). -/
structure SimpleRecord where
  channel_id : Nat
  message_id : Nat
  message_content : String
  timestamp : Int
  edited_timestamp : Option Int
  author_id : Nat
  reply_to : Option Nat
  processed : Bool
deriving DecidableEq

/-- `SimpleMessageConverter.convert_message`. -/
def simpleConvertMessage (m : Message) : SimpleRecord :=
  { channel_id := m.channel_id
    message_id := m.message_id
    message_content := m.content
    timestamp := m.created_at
    edited_timestamp := m.edited_at
    author_id := m.author_id
    reply_to := m.reply_to
    processed := false }

/-- A document of the Mongo `messages` collection.  `setPart` holds the
fields written through `"$set"` (absent on a reply-stub document created by
the `"$addToSet"` upsert), `message_content` / `processed` are the
`"$setOnInsert"` fields, and `replies` is the array maintained by
`"$addToSet"` (`[]` stands for an absent array). -/
structure MongoDoc where
  message_id : Nat
  setPart : Option MongoSetFields
  message_content : Option String
  processed : Option Bool
  replies : List Nat
deriving DecidableEq

/-- A frontier document's payload: the Python dict with optionally present
keys `id` (whose value may itself be `None`) and `previous_scan_time`. -/
structure FrontierDict where
  id : Option (Option Nat)
  previous_scan_time : Option Int
deriving DecidableEq

/-- A document of the Mongo `frontiers` collection, keyed by `channel_id`. -/
structure FrontDoc where
  channel_id : Nat
  data : FrontierDict
deriving DecidableEq

/-- The two Mongo collections the core reads and writes. -/
structure MongoState where
  messages : List MongoDoc
  frontiers : List FrontDoc
deriving DecidableEq

/-- `update_one`/`UpdateOne` with `upsert=True` over a list-modelled
collection: rewrite the first document matching the filter `p` with `g`,
or append the fresh document `ins` when no document matches. -/
def upsertBy {α : Type} (p : α → Bool) (g : α → α) (ins : α) : List α → List α
  | [] => [ins]
  | x :: xs => if p x then g x :: xs else x :: upsertBy p g ins xs

/-- Applying one `UpdateOne({"message_id": ...}, {"$set": ..., "$setOnInsert": ...})`
to an existing document: `"$set"` overwrites its keys (all of `setPart`
except that `edited_content` is kept when the new update does not carry the
key), `"$setOnInsert"` is ignored on a plain update. -/
def applyUpdater (u : MongoUpdater) (d : MongoDoc) : MongoDoc :=
  let oldEc : Option String :=
    match d.setPart with
    | some s => s.edited_content
    | none => none
  let newEc : Option String :=
    match u.setPart.edited_content with
    | some v => some v
    | none => oldEc
  { d with setPart := some { u.setPart with edited_content := newEc } }

/-- The document inserted by the same `UpdateOne` when no document with this
`message_id` exists: filter key, `"$set"` fields and `"$setOnInsert"` fields. -/
def insertDoc (u : MongoUpdater) : MongoDoc :=
  { message_id := u.setPart.message_id
    setPart := some u.setPart
    message_content := some u.soi_message_content
    processed := some false
    replies := [] }

/-- One message upsert of `MongoStore.save_messages`'s first `bulk_write`. -/
def mongoUpsertMessage (docs : List MongoDoc) (u : MongoUpdater) : List MongoDoc :=
  upsertBy (fun d => d.message_id == u.setPart.message_id) (applyUpdater u) (insertDoc u) docs

/-- `"$addToSet": {"replies": child}` applied to an existing document. -/
def addReplyDoc (child : Nat) (d : MongoDoc) : MongoDoc :=
  { d with replies := if child ∈ d.replies then d.replies else d.replies ++ [child] }

/-- The stub document inserted by the reply upsert when the parent is not in
the store: only the filter key and the `replies` array. -/
def insertReplyStub (parent child : Nat) : MongoDoc :=
  { message_id := parent
    setPart := none
    message_content := none
    processed := none
    replies := [child] }

/-- One reply upsert of `MongoStore.save_messages`'s second `bulk_write`. -/
def mongoAddReply (docs : List MongoDoc) (parent child : Nat) : List MongoDoc :=
  upsertBy (fun d => d.message_id == parent) (addReplyDoc child) (insertReplyStub parent child) docs

/-- Python exceptions the core can raise: `IndexError` from `messages[-1]`
on an empty batch, `InvalidOperation` from pymongo's `bulk_write` on an
empty operation list, and a raising message conversion. -/
inductive PyErr where
  | indexError
  | invalidOperation
  | conversionError
deriving DecidableEq

/-- The documents written by a successful `MongoStore.save_messages`:
first bulk-upsert every updater keyed by its `"$set"` `message_id`, then
for every updater carrying a `reply_to` reference upsert the parent
document's `replies` set. -/
def mongoWriteMessages (docs : List MongoDoc) (us : List MongoUpdater) : List MongoDoc :=
  let docs1 := us.foldl mongoUpsertMessage docs
  let replyPairs := us.filterMap fun u =>
    u.setPart.reply_to.map fun p => (p, u.setPart.message_id)
  replyPairs.foldl (fun ds pc => mongoAddReply ds pc.1 pc.2) docs1

/-- `MongoStore.save_messages`: the first `bulk_write` is issued
unconditionally, and pymongo raises `InvalidOperation` on an empty
operation list — the method's own `if replies:` guard before the second
`bulk_write` works around exactly that behaviour, but nothing guards the
first, so an empty updater list raises and writes nothing. -/
def MongoState.save_messages (ms : MongoState) (us : List MongoUpdater) :
    Except PyErr MongoState :=
  if us.isEmpty then .error .invalidOperation
  else .ok { ms with messages := mongoWriteMessages ms.messages us }

/-- `MongoStore.message_exists`: `find_one({"message_id": ...}) is not None`. -/
def mongoMessageExists (ms : MongoState) (i : Nat) : Bool :=
  (ms.messages.find? (fun d => d.message_id == i)).isSome

/-- `MongoStore.get_frontier`: `find_one({"channel_id": ...}) or {}` —
the stored frontier document, or the empty dict when absent. -/
def mongoGetFrontier (ms : MongoState) (c : Nat) : FrontierDict :=
  match ms.frontiers.find? (fun d => d.channel_id == c) with
  | some d => d.data
  | none => { id := none, previous_scan_time := none }

/-- `MongoStore.update_frontier`: `update_one({"channel_id": c}, {"$set": {"id": mid}}, upsert=True)`. -/
def mongoUpdateFrontier (ms : MongoState) (c : Nat) (mid : Nat) : MongoState :=
  let fs := upsertBy (fun d => d.channel_id == c)
    (fun d => { d with data := { d.data with id := some (some mid) } })
    { channel_id := c, data := { id := some (some mid), previous_scan_time := none } }
    ms.frontiers
  { ms with frontiers := fs }

/-- `"$set": data` over a frontier document: overwrite exactly the keys
present in `data`. -/
def applyFrontierDict (f : FrontierDict) (d : FrontierDict) : FrontierDict :=
  { id := (match f.id with | some v => some v | none => d.id)
    previous_scan_time :=
      (match f.previous_scan_time with | some v => some v | none => d.previous_scan_time) }

/-- `MongoStore.set_frontier`: `update_one({"channel_id": c}, {"$set": data}, upsert=True)`. -/
def mongoSetFrontier (ms : MongoState) (c : Nat) (f : FrontierDict) : MongoState :=
  let fs := upsertBy (fun d => d.channel_id == c)
    (fun d => { d with data := applyFrontierDict f d.data })
    { channel_id := c, data := f }
    ms.frontiers
  { ms with frontiers := fs }

/-- The frontier value used by `BasicStore`: both keys always present
(`id` may be `None`). -/
structure BasicFrontier where
  id : Option Nat
  previous_scan_time : Int
deriving DecidableEq

/-- `BasicStore`: a plain list of saved records plus a frontier dict. -/
structure BasicState where
  messages : List SimpleRecord
  frontier : List (Nat × BasicFrontier)
deriving DecidableEq

/-- `BasicStore.save_message`: `self.messages.append(message)`. -/
def basicSaveMessage (s : BasicState) (r : SimpleRecord) : BasicState :=
  { s with messages := s.messages ++ [r] }

/-- `BasicStore.save_messages`: `self.messages.extend(messages)`. -/
def basicSaveMessages (s : BasicState) (rs : List SimpleRecord) : BasicState :=
  { s with messages := s.messages ++ rs }

/-- `BasicStore.get_frontier`: `self.frontier.get(channel_id, {"id": None, "previous_scan_time": 0})`. -/
def basicGetFrontier (s : BasicState) (c : Nat) : BasicFrontier :=
  match s.frontier.find? (fun e => e.1 == c) with
  | some e => e.2
  | none => { id := none, previous_scan_time := 0 }

/-- `BasicStore.set_frontier`: `self.frontier[channel_id] = data`. -/
def basicSetFrontier (s : BasicState) (c : Nat) (f : BasicFrontier) : BasicState :=
  { s with frontier :=
      upsertBy (fun e => e.1 == c) (fun e => (e.1, f)) (c, f) s.frontier }

/-- `BasicStore.update_frontier`: dict assignment of the merged frontier. -/
def basicUpdateFrontier (s : BasicState) (c : Nat) (mid : Nat) : BasicState :=
  basicSetFrontier s c { basicGetFrontier s c with id := some mid }

/-- `BasicStore.message_exists`: `any(m["message_id"] == i for m in self.messages)`. -/
def basicMessageExists (s : BasicState) (i : Nat) : Bool :=
  s.messages.any (fun r => r.message_id == i)

/-- `DataManager` with its default collaborators (`MongoStore`,
`MongoMessageConverter`): the tracked channel list and the store state.
`rescan_interval` is the dict `{channel: 60 for channel in channels}`;
since every entry is the design default 60 and every lookup in the source
uses a tracked channel, it is modelled by the constant `rescanInterval`. -/
structure DM where
  channels : List Nat
  store : MongoState
deriving DecidableEq

/-- The per-channel rescan interval (design default, 60 time-units). -/
def rescanInterval : Int := 60

/-- Result of a Python call that may raise: `ok` carries the normal result,
`exn` carries the exception kind and the `DataManager` state at the moment
of the raise (writes performed before the raise are kept). -/
inductive Res (α : Type) where
  | ok (a : α)
  | exn (e : PyErr) (st : DM)
deriving DecidableEq

/-- `DataManager.get_frontier`: passthrough to the store. -/
def DM.get_frontier (dm : DM) (c : Nat) : FrontierDict :=
  mongoGetFrontier dm.store c

/-- `DataManager.get_frontier_message`: `mid = frontier.get("id", None)`,
then `if mid: return DiscordObject(mid)` — note the Python truthiness
check, which also maps a stored cursor of `0` to `None`. -/
def DM.get_frontier_message (dm : DM) (c : Nat) : Option Nat :=
  match (dm.get_frontier c).id.getD none with
  | some mid => if mid = 0 then none else some mid
  | none => none

/-- `DataManager.should_rescan`:
`timestamp < time.time() - self.rescan_interval[channel_id]`. -/
def DM.should_rescan (dm : DM) (now : Int) (c : Nat) : Bool :=
  let timestamp := (dm.get_frontier c).previous_scan_time.getD 0
  decide (timestamp < now - rescanInterval)

/-- `DataManager.get_targets`: channels with a (truthy) frontier message or
a due rescan. -/
def DM.get_targets (dm : DM) (now : Int) : List Nat :=
  dm.channels.filter fun c => (dm.get_frontier_message c).isSome || dm.should_rescan now c

/-- `DataManager.message_exists`: passthrough to the store. -/
def DM.message_exists (dm : DM) (i : Nat) : Bool :=
  mongoMessageExists dm.store i

/-- `DataManager.convert_message` through the default
`MongoMessageConverter` — the list-comprehension element, which raises on a
malformed message (`ConversionError`).  The thread lookup
(`message.channel.get_thread`) is not modelled: no claim concerns the
embedded sub-stream, so the thread argument is always `None`. -/
def dmConvertMessage (m : Message) : Except PyErr MongoUpdater :=
  if m.malformed then .error .conversionError else .ok (convertMessage m)

/-- The list comprehension
`[await self.convert_message(message) for message in messages ...]`:
convert in order, propagating the first raised exception. -/
def mapConvert : List Message → Except PyErr (List MongoUpdater)
  | [] => .ok []
  | m :: ms =>
    match dmConvertMessage m with
    | .error e => .error e
    | .ok u =>
      match mapConvert ms with
      | .error e => .error e
      | .ok us => .ok (u :: us)

/-- `DataManager.save_messages`: filter out `thread_created` structural
markers, convert the rest (first conversion failure aborts the whole
comprehension), bulk-save through the store (which raises
`InvalidOperation` when the converted list is empty, before any write),
then take `messages[-1]` (which raises `IndexError` on an empty input
batch) and, if `update_frontier`, advance the frontier cursor to that last
message. -/
def DM.save_messages (dm : DM) (messages : List Message) (update_frontier : Bool) : Res DM :=
  match mapConvert (messages.filter fun m => m.mtype != MessageType.thread_created) with
  | .error e => .exn e dm
  | .ok converted =>
    match dm.store.save_messages converted with
    | .error e => .exn e dm
    | .ok st =>
      let st1 : DM := { dm with store := st }
      match messages.getLast? with
      | none => .exn .indexError st1
      | some last =>
        if update_frontier then
          .ok { st1 with store := mongoUpdateFrontier st1.store last.channel_id last.message_id }
        else .ok st1

/-- `DataManager.save_message` (the live-item path): skip a structural
marker entirely, otherwise convert and save one record; if
`update_frontier`, advance the cursor to this message. -/
def DM.save_message (dm : DM) (m : Message) (update_frontier : Bool) : Res DM :=
  let afterSave : Res DM :=
    if m.mtype != MessageType.thread_created then
      match dmConvertMessage m with
      | .error e => .exn e dm
      | .ok u =>
        match dm.store.save_messages [u] with
        | .error e => .exn e dm
        | .ok st => .ok { dm with store := st }
    else .ok dm
  match afterSave with
  | .exn e st => .exn e st
  | .ok dm1 =>
    if update_frontier then
      .ok { dm1 with store := mongoUpdateFrontier dm1.store m.channel_id m.message_id }
    else .ok dm1

/-- `DataManager.finish_frontier`: read the frontier dict, set
`id = None` and `previous_scan_time = int(time.time())`, write it back. -/
def DM.finish_frontier (dm : DM) (now : Int) (c : Nat) : DM :=
  let front := dm.get_frontier c
  let front := { front with id := some none, previous_scan_time := some now }
  { dm with store := mongoSetFrontier dm.store c front }

/-- The external source's `channel.history(limit=limit, after=after,
oldest_first=True)` over a channel whose full ascending message list is
`items`: up to `limit` messages with identifier strictly greater than
`after` (all of them when `after` is `None`), oldest first. -/
def historyAfter (items : List Message) (limit : Nat) (after : Option Nat) : List Message :=
  (match after with
   | none => items
   | some a => items.filter fun m => a < m.message_id).take limit

/-- `Scraper._scrape_channel`: fetch up to `limit` messages after the
frontier, process them (note: `_process_messages` is called without
`update_frontier=True`), and report whether scraping is complete
(`len == 0 or len != limit`). -/
def scrapeChannel (dm : DM) (items : List Message) (limit : Nat) (c : Nat) : Res (DM × Bool) :=
  let frontier := dm.get_frontier_message c
  let messages := historyAfter items limit frontier
  match dm.save_messages messages false with
  | .exn e st => .exn e st
  | .ok dm1 => .ok (dm1, messages.isEmpty || messages.length != limit)

/-- The `while current_channels:` loop of `Scraper.scrape_all_channels`,
with explicit fuel: `none` means the loop is still running after `fuel`
iterations.  `world c` is channel `c`'s full ascending message list. -/
def scrapeGo (world : Nat → List Message) (limit : Nat) (now : Int) :
    Nat → DM → List Nat → Nat → Option (Res DM)
  | 0, dm, current, _ => if current.isEmpty then some (.ok dm) else none
  | fuel + 1, dm, current, i =>
    if current.isEmpty then some (.ok dm)
    else
      let j := i % current.length
      let c := current.getD j 0
      match scrapeChannel dm (world c) limit c with
      | .exn e st => some (.exn e st)
      | .ok (dm1, complete) =>
        if complete then
          scrapeGo world limit now fuel (dm1.finish_frontier now c) (current.eraseIdx j) (j + 1)
        else
          scrapeGo world limit now fuel dm1 current (j + 1)

/-- `Scraper.scrape_all_channels`: round-robin over `get_targets()`,
popping each channel once a round reports completion. -/
def scrapeAllChannels (world : Nat → List Message) (limit : Nat) (now : Int)
    (fuel : Nat) (dm : DM) : Option (Res DM) :=
  scrapeGo world limit now fuel dm (dm.get_targets now) 0

/-- The `async for` loop of `Scraper._scrape_unseen_only`: walk the
delivered newest-first messages, returning early — without saving — as
soon as an already-stored message is met, and otherwise process the
accumulated list once the iterator is exhausted. -/
def scrapeUnseenLoop (dm : DM) : List Message → List Message → Res DM
  | [], acc => dm.save_messages acc false
  | m :: rest, acc =>
    if dm.message_exists m.message_id then .ok dm
    else scrapeUnseenLoop dm rest (acc ++ [m])

/-- `Scraper._scrape_unseen_only`: iterate over
`channel.history(limit=limit, oldest_first=None)`, i.e. the newest-first
delivery truncated to `limit` items. -/
def scrapeUnseenOnly (dm : DM) (deliveredNewestFirst : List Message) (limit : Nat) : Res DM :=
  scrapeUnseenLoop dm (deliveredNewestFirst.take limit) []

/-- The channel loop of `Scraper.scrape_all_unseen`: skip channels that are
already due for a rescan, catch up on the rest.  `worldNewest c` is the
newest-first delivery for channel `c`. -/
def scrapeAllUnseenGo (worldNewest : Nat → List Message) (limit : Nat) (now : Int)
    (dm : DM) : List Nat → Res DM
  | [] => .ok dm
  | c :: rest =>
    if dm.should_rescan now c then scrapeAllUnseenGo worldNewest limit now dm rest
    else
      match scrapeUnseenOnly dm (worldNewest c) limit with
      | .exn e st => .exn e st
      | .ok dm1 => scrapeAllUnseenGo worldNewest limit now dm1 rest

/-- `Scraper.scrape_all_unseen` over the tracked channels. -/
def scrapeAllUnseen (worldNewest : Nat → List Message) (limit : Nat) (now : Int)
    (dm : DM) : Res DM :=
  scrapeAllUnseenGo worldNewest limit now dm dm.channels

/-! Helper lemmas about the list-modelled upsert and the conversion loop. -/

theorem find?_upsertBy_key {α : Type} (p : α → Bool) (g : α → α) (ins : α)
    (hins : p ins = true) (hg : ∀ x, p x = true → p (g x) = true) :
    ∀ l : List α, (upsertBy p g ins l).find? p =
      some (match l.find? p with | some x => g x | none => ins) := by
  intro l
  induction l with
  | nil => simp [upsertBy, List.find?, hins]
  | cons x xs ih =>
    by_cases hx : p x = true
    · simp [upsertBy, hx, List.find?, hg x hx]
    · simp only [Bool.not_eq_true] at hx
      simp [upsertBy, hx, List.find?, ih]

theorem find?_upsertBy_ne {α : Type} (p q : α → Bool) (g : α → α) (ins : α)
    (hins : q ins = false) (hpq : ∀ x, p x = true → q x = false)
    (hg : ∀ x, q (g x) = q x) :
    ∀ l : List α, (upsertBy p g ins l).find? q = l.find? q := by
  intro l
  induction l with
  | nil => simp [upsertBy, List.find?, hins]
  | cons x xs ih =>
    by_cases hx : p x = true
    · have hqx : q x = false := hpq x hx
      have hqgx : q (g x) = false := by rw [hg]; exact hqx
      simp [upsertBy, hx, List.find?, hqx, hqgx]
    · simp only [Bool.not_eq_true] at hx
      by_cases hq : q x = true
      · simp [upsertBy, hx, List.find?, hq]
      · simp only [Bool.not_eq_true] at hq
        simp [upsertBy, hx, List.find?, hq, ih]

theorem countP_upsertBy_pos {α : Type} (p : α → Bool) (g : α → α) (ins : α)
    (hins : p ins = true) (hg : ∀ x, p (g x) = p x) :
    ∀ l : List α, (upsertBy p g ins l).countP p =
      if l.any p then l.countP p else l.countP p + 1 := by
  intro l
  induction l with
  | nil => simp [upsertBy, hins]
  | cons x xs ih =>
    by_cases hx : p x = true
    · simp [upsertBy, hx, List.countP_cons, hg]
    · simp only [Bool.not_eq_true] at hx
      simp [upsertBy, hx, List.countP_cons, ih]

theorem countP_upsertBy_ne {α : Type} (p q : α → Bool) (g : α → α) (ins : α)
    (hins : q ins = false) (hg : ∀ x, q (g x) = q x) :
    ∀ l : List α, (upsertBy p g ins l).countP q = l.countP q := by
  intro l
  induction l with
  | nil => simp [upsertBy, hins]
  | cons x xs ih =>
    by_cases hx : p x = true
    · simp [upsertBy, hx, List.countP_cons, hg]
    · simp only [Bool.not_eq_true] at hx
      simp [upsertBy, hx, List.countP_cons, ih]

theorem find?_isSome_eq_any {α : Type} (p : α → Bool) :
    ∀ l : List α, (l.find? p).isSome = l.any p := by
  intro l
  induction l with
  | nil => simp [List.find?]
  | cons x xs ih =>
    by_cases hx : p x = true
    · simp [List.find?, hx]
    · simp only [Bool.not_eq_true] at hx
      simp [List.find?, hx, ih]

theorem mapConvert_ok (l : List Message) (h : ∀ m ∈ l, m.malformed = false) :
    mapConvert l = .ok (l.map convertMessage) := by
  induction l with
  | nil => simp [mapConvert]
  | cons m ms ih =>
    have hm : m.malformed = false := h m (List.mem_cons_self m ms)
    have hms : ∀ x ∈ ms, x.malformed = false := fun x hx => h x (List.mem_cons_of_mem m hx)
    simp [mapConvert, dmConvertMessage, hm, ih hms]

theorem mapConvert_err (l : List Message) (h : l.any (fun m => m.malformed) = true) :
    mapConvert l = .error .conversionError := by
  induction l with
  | nil => simp at h
  | cons m ms ih =>
    by_cases hm : m.malformed = true
    · simp [mapConvert, dmConvertMessage, hm]
    · simp only [Bool.not_eq_true] at hm
      simp only [List.any_cons, hm, Bool.false_or] at h
      simp [mapConvert, dmConvertMessage, hm, ih h]

/-! Characterizations of `DataManager.save_messages`'s possible outcomes. -/

theorem save_messages_conv_err (dm : DM) (ms : List Message) (uf : Bool)
    (h : mapConvert (ms.filter fun m => m.mtype != MessageType.thread_created) =
      .error .conversionError) :
    dm.save_messages ms uf = .exn .conversionError dm := by
  unfold DM.save_messages
  rw [h]

theorem save_messages_empty_exn (dm : DM) (ms : List Message) (uf : Bool)
    (h1 : mapConvert (ms.filter fun m => m.mtype != MessageType.thread_created) = .ok []) :
    dm.save_messages ms uf = .exn .invalidOperation dm := by
  unfold DM.save_messages MongoState.save_messages
  rw [h1]
  rfl

theorem save_messages_false_eq (dm : DM) (ms : List Message)
    (us : List MongoUpdater) (last : Message)
    (h1 : mapConvert (ms.filter fun m => m.mtype != MessageType.thread_created) = .ok us)
    (hne : us ≠ [])
    (h2 : ms.getLast? = some last) :
    dm.save_messages ms false =
      .ok { dm with store :=
        { dm.store with messages := mongoWriteMessages dm.store.messages us } } := by
  obtain ⟨u0, us1, rfl⟩ : ∃ u0 us1, us = u0 :: us1 := by
    cases us with
    | nil => exact absurd rfl hne
    | cons a l => exact ⟨a, l, rfl⟩
  unfold DM.save_messages MongoState.save_messages
  rw [h1, h2]
  rfl

theorem save_messages_true_eq (dm : DM) (ms : List Message)
    (us : List MongoUpdater) (last : Message)
    (h1 : mapConvert (ms.filter fun m => m.mtype != MessageType.thread_created) = .ok us)
    (hne : us ≠ [])
    (h2 : ms.getLast? = some last) :
    dm.save_messages ms true =
      .ok { dm with store := mongoUpdateFrontier { dm.store with messages := mongoWriteMessages dm.store.messages us } last.channel_id last.message_id } := by
  obtain ⟨u0, us1, rfl⟩ : ∃ u0 us1, us = u0 :: us1 := by
    cases us with
    | nil => exact absurd rfl hne
    | cons a l => exact ⟨a, l, rfl⟩
  unfold DM.save_messages MongoState.save_messages
  rw [h1, h2]
  rfl

/-! Concrete scenario data (spec section 8, Scenarios A-D). -/

/-- A plain, well-formed message with identifier `i` on channel 5. -/
def mkMsg (i : Nat) : Message :=
  ⟨i, 5, .default, 1, "", 0, none, none, false⟩

/-- Seven messages with identifiers 1..7 (Scenario A's channel content). -/
def sevenItems : List Message :=
  [mkMsg 1, mkMsg 2, mkMsg 3, mkMsg 4, mkMsg 5, mkMsg 6, mkMsg 7]

/-- Every channel holds the seven messages. -/
def sevenWorld : Nat → List Message := fun _ => sevenItems

/-- Scenario A start state: channel 5 is mid-pass with frontier cursor 2. -/
def dmSeven : DM := ⟨[5], ⟨[], [⟨5, ⟨some (some 2), some 0⟩⟩]⟩⟩

/-- The `DataManager` state after the first steady-state round on
`dmSeven` (the saved batch [3,4,5], frontier untouched). -/
def dmSeven1 : DM :=
  match scrapeChannel dmSeven sevenItems 3 5 with
  | .ok (d, _) => d
  | .exn _ d => d

theorem scrapeChannel_seven_first :
    scrapeChannel dmSeven sevenItems 3 5 = .ok (dmSeven1, false) := by decide

theorem scrapeChannel_seven_fix :
    scrapeChannel dmSeven1 sevenItems 3 5 = .ok (dmSeven1, false) := by decide

theorem scrapeGo_seven_stuck : ∀ (n : Nat) (i : Nat),
    scrapeGo sevenWorld 3 100 n dmSeven1 [5] i = none := by
  intro n
  induction n with
  | zero => intro i; rfl
  | succ n ih =>
    intro i
    simp [scrapeGo, Nat.mod_one, sevenWorld, scrapeChannel_seven_fix, ih]

/-- C1 — Steady-state cursor advance.  The claim FAILS on the code:
`_scrape_channel` calls `_process_messages(messages)` without
`update_frontier=True`, so the batch is saved with the frontier untouched.
On Scenario A's input (limit 3, items 1..7, cursor 2) the round fetches
[3,4,5] and completes normally, but the cursor read back afterwards is
still 2 — not 5 as the claim requires — and the next fetch returns the
same [3,4,5] batch again instead of starting strictly after 5. -/
theorem c1_steady_state_cursor_stuck :
    scrapeChannel dmSeven sevenItems 3 5 = .ok (dmSeven1, false) ∧
    dmSeven1.get_frontier_message 5 = some 2 ∧
    (dmSeven1.get_frontier 5).id = some (some 2) ∧
    historyAfter sevenItems 3 (dmSeven1.get_frontier_message 5) =
      [mkMsg 3, mkMsg 4, mkMsg 5] := by decide

/-- C2 — Pagination termination.  The claim FAILS on the code: with N = 7
items past the cursor and page size L = 3 the claim promises exactly
`ceil(7/3) = 3` fetch rounds and a finished pass, but because the cursor
never advances (see C1) every round refetches the same full batch, the
round-robin working set never shrinks, and `scrape_all_channels` runs
forever: for every fuel bound the loop is still running. -/
theorem c2_pagination_never_terminates :
    ∀ fuel : Nat, scrapeAllChannels sevenWorld 3 100 fuel dmSeven = none := by
  intro fuel
  have ht : dmSeven.get_targets 100 = [5] := by decide
  unfold scrapeAllChannels
  rw [ht]
  cases fuel with
  | zero => rfl
  | succ n =>
    simp [scrapeGo, Nat.mod_one, sevenWorld, scrapeChannel_seven_first]
    exact scrapeGo_seven_stuck n 1

/-- A `DataManager` tracking the empty channel 5 over an empty store. -/
def dmEmptyChan : DM := ⟨[5], ⟨[], []⟩⟩

/-- Every channel is empty. -/
def emptyWorld : Nat → List Message := fun _ => []

/-- C4 — Empty-stream pass.  The claim FAILS on the code: an empty batch
crashes `save_messages` instead of being processed — with the default
`MongoStore`, pymongo's `bulk_write([])` raises `InvalidOperation` on the
empty converted list, and even were the store call to return (as with
`BasicStore`), the unconditional `last_message = messages[-1]` raises
`IndexError` — so the first empty fetch of an empty stream aborts
`scrape_all_channels` with the exception instead of completing the stream
via `finish_frontier` (the state carried out by the exception shows
`finish_frontier` never ran: the frontier collection is still empty, with
no scan timestamp). -/
theorem c4_empty_batch_raises :
    DM.save_messages dmEmptyChan [] false = .exn .invalidOperation dmEmptyChan ∧
    scrapeAllChannels emptyWorld 3 100 5 dmEmptyChan =
      some (.exn .invalidOperation dmEmptyChan) ∧
    dmEmptyChan.store.frontiers = [] := by decide

/-- The stored record of message 7 (the already-known item of Scenario C). -/
def c3doc7 : MongoDoc := ⟨7, some ⟨5, 7, .default, 0, none, 1, none, none⟩, some "", some false, []⟩

/-- Catch-up start state: message 7 is already stored. -/
def dmCatch : DM := ⟨[5], ⟨[c3doc7], []⟩⟩

/-- Scenario C's newest-first delivery: [10, 9, 8, 7 (known), 6]. -/
def catchDelivered : List Message :=
  [mkMsg 10, mkMsg 9, mkMsg 8, mkMsg 7, mkMsg 6]

/-- C3 — Catch-up boundary.  The claim FAILS on the code: when
`_scrape_unseen_only` meets the first already-known message it executes
`return` — not `break` — so the collected newer messages are discarded
without ever being passed to `save_messages`.  On Scenario C's input
(delivered [10,9,8,7(known),6], limit 5) the pass returns with the store
bit-for-bit unchanged: messages 10, 9, 8 are NOT saved, where the claim
requires exactly them to be saved. -/
theorem c3_catchup_discards_collected :
    scrapeUnseenOnly dmCatch catchDelivered 5 = .ok dmCatch ∧
    dmCatch.message_exists 7 = true ∧
    dmCatch.message_exists 10 = false ∧
    dmCatch.message_exists 9 = false ∧
    dmCatch.message_exists 8 = false := by decide

/-! Counting lemmas used for the idempotent-save analysis. -/

theorem any_eq_false_of_countP_eq_zero {α : Type} (p : α → Bool) (l : List α)
    (h : l.countP p = 0) : l.any p = false := by
  rw [Bool.eq_false_iff]
  intro hc
  obtain ⟨x, hx, hpx⟩ := List.any_eq_true.mp hc
  exact absurd hpx (by simpa using List.countP_eq_zero.mp h x hx)

theorem any_eq_true_of_countP_pos {α : Type} (p : α → Bool) (l : List α)
    (h : 0 < l.countP p) : l.any p = true := by
  obtain ⟨x, hx, hpx⟩ := List.countP_pos_iff.mp h
  exact List.any_eq_true.mpr ⟨x, hx, hpx⟩

theorem mongoMessageExists_eq_any (ms : MongoState) (i : Nat) :
    mongoMessageExists ms i = ms.messages.any (fun d => d.message_id == i) := by
  rw [mongoMessageExists, find?_isSome_eq_any]

/-- `mongoWriteMessages` on a single updater: one message upsert, then the
reply upsert when the updater carries a `reply_to`. -/
theorem mongoWriteMessages_single (docs : List MongoDoc) (u : MongoUpdater) :
    mongoWriteMessages docs [u] =
      (match u.setPart.reply_to with
       | some p => mongoAddReply (mongoUpsertMessage docs u) p u.setPart.message_id
       | none => mongoUpsertMessage docs u) := by
  cases hrt : u.setPart.reply_to <;> simp [mongoWriteMessages, hrt]

theorem countP_mongoUpsertMessage (docs : List MongoDoc) (u : MongoUpdater)
    (h : docs.countP (fun d => d.message_id == u.setPart.message_id) ≤ 1) :
    (mongoUpsertMessage docs u).countP
      (fun d => d.message_id == u.setPart.message_id) = 1 := by
  rw [mongoUpsertMessage,
    countP_upsertBy_pos (fun d => d.message_id == u.setPart.message_id) (applyUpdater u)
      (insertDoc u) (by simp [insertDoc]) (fun x => rfl)]
  rcases Nat.le_one_iff_eq_zero_or_eq_one.mp h with h0 | h1
  · rw [any_eq_false_of_countP_eq_zero _ _ h0]
    simp [h0]
  · rw [any_eq_true_of_countP_pos _ _ (by omega)]
    simp [h1]

theorem countP_mongoWrite_single (docs : List MongoDoc) (u : MongoUpdater)
    (h : docs.countP (fun d => d.message_id == u.setPart.message_id) ≤ 1) :
    (mongoWriteMessages docs [u]).countP
      (fun d => d.message_id == u.setPart.message_id) = 1 := by
  have h1 := countP_mongoUpsertMessage docs u h
  rw [mongoWriteMessages_single]
  cases hrt : u.setPart.reply_to with
  | none => exact h1
  | some p =>
    by_cases hp : p = u.setPart.message_id
    · subst hp
      unfold mongoAddReply
      rw [countP_upsertBy_pos (fun d => d.message_id == u.setPart.message_id)
        (addReplyDoc u.setPart.message_id)
        (insertReplyStub u.setPart.message_id u.setPart.message_id)
        (by simp [insertReplyStub]) (fun x => rfl)]
      rw [any_eq_true_of_countP_pos _ _ (by omega)]
      exact h1
    · unfold mongoAddReply
      rw [countP_upsertBy_ne (fun d => d.message_id == p)
        (fun d => d.message_id == u.setPart.message_id) (addReplyDoc u.setPart.message_id)
        (insertReplyStub p u.setPart.message_id)
        (by simp [insertReplyStub, hp]) (fun x => rfl)]
      exact h1

/-- A concrete record with identifier 5 (for the BasicStore counterexample). -/
def r5 : SimpleRecord := ⟨5, 5, "", 0, none, 1, none, false⟩

/-- C5 counterexample — the claim as stated is FALSE for `BasicStore`:
`save_message` appends unconditionally, so saving the same record twice
into an empty store leaves two stored records with its identifier, not
exactly one. -/
theorem c5_basic_store_duplicates :
    ¬ ((basicSaveMessage (basicSaveMessage ⟨[], []⟩ r5) r5).messages.countP
        (fun d => d.message_id == 5) = 1) := by decide

/-- Saving one updater through `MongoStore.save_messages` succeeds (a
singleton operation list is never empty) and leaves exactly one stored
record for its identifier, which then exists. -/
theorem mongo_state_save_single (ms : MongoState) (u : MongoUpdater)
    (h : ms.messages.countP (fun d => d.message_id == u.setPart.message_id) ≤ 1) :
    ∃ ms1, ms.save_messages [u] = .ok ms1 ∧
      ms1.messages.countP (fun d => d.message_id == u.setPart.message_id) = 1 ∧
      mongoMessageExists ms1 u.setPart.message_id = true := by
  refine ⟨{ ms with messages := mongoWriteMessages ms.messages [u] }, rfl, ?_, ?_⟩
  · exact countP_mongoWrite_single ms.messages u h
  · rw [mongoMessageExists_eq_any]
    apply any_eq_true_of_countP_pos
    show 0 < (mongoWriteMessages ms.messages [u]).countP
      (fun d => d.message_id == u.setPart.message_id)
    have := countP_mongoWrite_single ms.messages u h
    omega

/-- C5 amended — Idempotent save holds for `MongoStore` but not for
`BasicStore`: saving the same item twice through `MongoStore.save_messages`
(an upsert keyed by `message_id`) succeeds both times and leaves exactly
one stored record for its identifier, with `message_exists` true after
either save, provided the store starts with at most one record for that
identifier (which the collection's unique index on `message_id`
guarantees); `BasicStore`, by contrast, appends on every save, so the same
item saved twice is stored twice — though `message_exists` is still true
after either save. -/
theorem c5_idempotent_save_amended :
    (∀ (ms : MongoState) (u : MongoUpdater),
      ms.messages.countP (fun d => d.message_id == u.setPart.message_id) ≤ 1 →
      ∃ ms1 ms2,
        ms.save_messages [u] = .ok ms1 ∧
        ms1.messages.countP (fun d => d.message_id == u.setPart.message_id) = 1 ∧
        mongoMessageExists ms1 u.setPart.message_id = true ∧
        ms1.save_messages [u] = .ok ms2 ∧
        ms2.messages.countP (fun d => d.message_id == u.setPart.message_id) = 1 ∧
        mongoMessageExists ms2 u.setPart.message_id = true) ∧
    (∀ (s : BasicState) (r : SimpleRecord),
      (basicSaveMessage (basicSaveMessage s r) r).messages.countP
          (fun d => d.message_id == r.message_id) =
        s.messages.countP (fun d => d.message_id == r.message_id) + 2 ∧
      basicMessageExists (basicSaveMessage s r) r.message_id = true ∧
      basicMessageExists (basicSaveMessage (basicSaveMessage s r) r) r.message_id = true) := by
  constructor
  · intro ms u h
    obtain ⟨ms1, hs1, hc1, he1⟩ := mongo_state_save_single ms u h
    obtain ⟨ms2, hs2, hc2, he2⟩ := mongo_state_save_single ms1 u (by omega)
    exact ⟨ms1, ms2, hs1, hc1, he1, hs2, hc2, he2⟩
  · intro s r
    refine ⟨?_, ?_, ?_⟩
    · simp [basicSaveMessage, List.countP_append, List.countP_cons]
    · simp [basicSaveMessage, basicMessageExists, List.any_append]
    · simp [basicSaveMessage, basicMessageExists, List.any_append]

/-- C5 witness: the amended Mongo half at a concrete input — the converted
message 3 saved twice into the empty store. -/
theorem c5_idempotent_save_witness :
    ∃ ms1 ms2,
      (MongoState.mk [] []).save_messages [convertMessage (mkMsg 3)] = .ok ms1 ∧
      ms1.messages.countP
        (fun d => d.message_id == (convertMessage (mkMsg 3)).setPart.message_id) = 1 ∧
      mongoMessageExists ms1 (convertMessage (mkMsg 3)).setPart.message_id = true ∧
      ms1.save_messages [convertMessage (mkMsg 3)] = .ok ms2 ∧
      ms2.messages.countP
        (fun d => d.message_id == (convertMessage (mkMsg 3)).setPart.message_id) = 1 ∧
      mongoMessageExists ms2 (convertMessage (mkMsg 3)).setPart.message_id = true :=
  c5_idempotent_save_amended.1 (MongoState.mk [] []) (convertMessage (mkMsg 3)) (by decide)

theorem find?_setFrontier_list (c : Nat) (f : FrontierDict) :
    ∀ l : List FrontDoc,
      (upsertBy (fun d => d.channel_id == c)
        (fun d => { d with data := applyFrontierDict f d.data })
        { channel_id := c, data := f } l).find? (fun d => d.channel_id == c) =
      some (match l.find? (fun d => d.channel_id == c) with
            | some d => { d with data := applyFrontierDict f d.data }
            | none => { channel_id := c, data := f }) := by
  intro l
  induction l with
  | nil => simp [upsertBy, List.find?]
  | cons x xs ih =>
    by_cases hx : (x.channel_id == c) = true
    · simp [upsertBy, hx, List.find?]
    · simp only [Bool.not_eq_true] at hx
      simp [upsertBy, hx, List.find?, ih]

theorem find?_updateFrontier_list (c : Nat) (mid : Nat) :
    ∀ l : List FrontDoc,
      (upsertBy (fun d => d.channel_id == c)
        (fun d => { d with data := { d.data with id := some (some mid) } })
        { channel_id := c, data := { id := some (some mid), previous_scan_time := none } }
        l).find? (fun d => d.channel_id == c) =
      some (match l.find? (fun d => d.channel_id == c) with
            | some d => { d with data := { d.data with id := some (some mid) } }
            | none => { channel_id := c,
                        data := { id := some (some mid), previous_scan_time := none } }) := by
  intro l
  induction l with
  | nil => simp [upsertBy, List.find?]
  | cons x xs ih =>
    by_cases hx : (x.channel_id == c) = true
    · simp [upsertBy, hx, List.find?]
    · simp only [Bool.not_eq_true] at hx
      simp [upsertBy, hx, List.find?, ih]

/-- Reading back the frontier of channel `c` right after `set_frontier` on
`c`: the stored document merged with the written dict. -/
theorem mongoGetFrontier_setFrontier (ms : MongoState) (c : Nat) (f : FrontierDict) :
    mongoGetFrontier (mongoSetFrontier ms c f) c =
      (match ms.frontiers.find? (fun d => d.channel_id == c) with
       | some d => applyFrontierDict f d.data
       | none => f) := by
  simp only [mongoGetFrontier, mongoSetFrontier]
  rw [find?_setFrontier_list c f ms.frontiers]
  cases ms.frontiers.find? (fun d => d.channel_id == c) <;> rfl

/-- Reading back the frontier of channel `c` right after `update_frontier`
on `c`: the cursor field holds the new message identifier. -/
theorem mongoGetFrontier_updateFrontier (ms : MongoState) (c : Nat) (mid : Nat) :
    (mongoGetFrontier (mongoUpdateFrontier ms c mid) c).id = some (some mid) := by
  simp only [mongoGetFrontier, mongoUpdateFrontier]
  rw [find?_updateFrontier_list c mid ms.frontiers]
  cases ms.frontiers.find? (fun d => d.channel_id == c) <;> rfl

/-- After `finish_frontier`, the stored frontier's scan timestamp reads
back as the finishing time. -/
theorem get_frontier_finish (dm : DM) (now : Int) (c : Nat) :
    ((dm.finish_frontier now c).get_frontier c).previous_scan_time = some now := by
  rw [show (dm.finish_frontier now c).get_frontier c =
      mongoGetFrontier (mongoSetFrontier dm.store c
        { dm.get_frontier c with id := some none, previous_scan_time := some now }) c from rfl]
  rw [mongoGetFrontier_setFrontier]
  cases dm.store.frontiers.find? (fun d => d.channel_id == c) <;> rfl

/-- C6 counterexample — the claim as stated is FALSE on the boundary:
`should_rescan` compares with a strict `<` shifted by the interval, so at
`now - previous_scan_time = rescanInterval` exactly (here `now = 60`,
stored scan time 0, interval 60) the code answers `False` while the
claimed `>=` condition holds. -/
theorem c6_scan_due_boundary :
    ¬ (dmEmptyChan.should_rescan 60 5 = true ↔
       60 - (dmEmptyChan.get_frontier 5).previous_scan_time.getD 0 ≥ rescanInterval) := by
  decide

/-- C6 amended — Scan-due predicate with a strict bound: `should_rescan`
is true iff `now - previous_scan_time > rescanInterval` (strictly greater
than the default 60), and it is false immediately after `finish_frontier`
stamps `previous_scan_time` with the current time. -/
theorem c6_scan_due_strict :
    ∀ (dm : DM) (now : Int) (c : Nat),
      (dm.should_rescan now c = true ↔
        now - (dm.get_frontier c).previous_scan_time.getD 0 > rescanInterval) ∧
      (dm.finish_frontier now c).should_rescan now c = false := by
  intro dm now c
  constructor
  · rw [DM.should_rescan]
    rw [decide_eq_true_eq]
    constructor <;> (intro h; omega)
  · rw [DM.should_rescan, get_frontier_finish]
    simp only [Option.getD_some, decide_eq_false_iff_not, rescanInterval]
    omega

/-- A `thread_created` structural marker with identifier 2 on channel 5. -/
def markerMsg : Message := ⟨2, 5, .thread_created, 1, "", 0, none, none, false⟩

/-- Scenario D batch: a plain message followed by a trailing marker. -/
def markerBatch : List Message := [mkMsg 1, markerMsg]

/-- C7 counterexample — the claim as stated ("for every batch") is FALSE
on a batch consisting only of structural markers: filtering leaves an
empty converted list, `MongoStore.save_messages` issues `bulk_write([])`
which pymongo rejects with `InvalidOperation`, and the save raises with
the frontier untouched — the cursor is NOT advanced to the marker's
identifier. -/
theorem c7_all_marker_batch_raises :
    dmEmptyChan.save_messages [markerMsg] true = .exn .invalidOperation dmEmptyChan ∧
    (dmEmptyChan.get_frontier markerMsg.channel_id).id = none := by decide

/-- C7 amended — Structural-marker filtering with cursor advance: for
every batch passed to `save_messages` with `update_frontier=True` that
contains at least one non-marker item (and whose non-marker items convert
cleanly), the `thread_created` markers are filtered out before conversion
— the store receives updaters for exactly the non-marker items and, when
identifiers are distinct, no updater carries a marker's identifier — yet
the cursor is advanced to the identifier of the *last* item of the input
batch in input order, including when that item is a marker.  (A batch of
only markers instead raises `InvalidOperation` from the empty
`bulk_write` and advances nothing.) -/
theorem c7_marker_filtering (dm : DM) (batch : List Message) (last : Message)
    (hlast : batch.getLast? = some last)
    (hnm : batch.filter (fun m => m.mtype != MessageType.thread_created) ≠ [])
    (hok : ∀ m ∈ batch, m.mtype ≠ MessageType.thread_created → m.malformed = false)
    (hid : ∀ m ∈ batch, ∀ m2 ∈ batch, m.mtype = MessageType.thread_created →
      m2.mtype ≠ MessageType.thread_created → m.message_id ≠ m2.message_id) :
    ∃ dm1, dm.save_messages batch true = Res.ok dm1 ∧
      (dm1.get_frontier last.channel_id).id = some (some last.message_id) ∧
      dm1.store.messages = mongoWriteMessages dm.store.messages
        ((batch.filter fun m => m.mtype != MessageType.thread_created).map convertMessage) ∧
      (∀ m ∈ batch, m.mtype = MessageType.thread_created →
        ∀ u ∈ (batch.filter fun m => m.mtype != MessageType.thread_created).map convertMessage,
          u.setPart.message_id ≠ m.message_id) := by
  have hconv : mapConvert (batch.filter fun m => m.mtype != MessageType.thread_created) =
      .ok ((batch.filter fun m => m.mtype != MessageType.thread_created).map convertMessage) := by
    apply mapConvert_ok
    intro m hm
    rw [List.mem_filter] at hm
    exact hok m hm.1 (by simpa using hm.2)
  have hne2 : (batch.filter fun m => m.mtype != MessageType.thread_created).map
      convertMessage ≠ [] := by
    cases hl : batch.filter (fun m => m.mtype != MessageType.thread_created) with
    | nil => exact absurd hl hnm
    | cons a l => simp
  refine ⟨_, save_messages_true_eq dm batch _ last hconv hne2 hlast, ?_, ?_, ?_⟩
  · exact mongoGetFrontier_updateFrontier _ _ _
  · rfl
  · intro m hm hmark u hu
    obtain ⟨m2, hm2, rfl⟩ := List.mem_map.mp hu
    rw [List.mem_filter] at hm2
    have hne := hid m hm m2 hm2.1 hmark (by simpa using hm2.2)
    exact fun he => hne.symm (by simpa [convertMessage] using he)

/-- C7 witness: Scenario D — the marker is last in the batch (which also
holds a plain message), the store gets no record with the marker's
identifier, yet the cursor advances past it. -/
theorem c7_marker_filtering_witness :
    ∃ dm1, dmEmptyChan.save_messages markerBatch true = Res.ok dm1 ∧
      (dm1.get_frontier markerMsg.channel_id).id = some (some markerMsg.message_id) ∧
      dm1.store.messages = mongoWriteMessages dmEmptyChan.store.messages
        ((markerBatch.filter fun m => m.mtype != MessageType.thread_created).map convertMessage) ∧
      (∀ m ∈ markerBatch, m.mtype = MessageType.thread_created →
        ∀ u ∈ (markerBatch.filter fun m => m.mtype != MessageType.thread_created).map convertMessage,
          u.setPart.message_id ≠ m.message_id) :=
  c7_marker_filtering dmEmptyChan markerBatch markerMsg (by decide) (by decide) (by decide)
    (by decide)

/-- C8 — Frontier default: with no stored frontier record for the channel,
`MongoStore.get_frontier` returns the empty document — whose cursor and
scan-time reads (the `.get` accessors used at every call site) are `None`
and `0` — and `BasicStore.get_frontier` returns the literal default
`{"id": None, "previous_scan_time": 0}`. -/
theorem c8_frontier_default (ms : MongoState) (bs : BasicState) (c : Nat)
    (h1 : ms.frontiers.find? (fun d => d.channel_id == c) = none)
    (h2 : bs.frontier.find? (fun e => e.1 == c) = none) :
    ((mongoGetFrontier ms c).id.getD none = none ∧
     (mongoGetFrontier ms c).previous_scan_time.getD 0 = 0) ∧
    basicGetFrontier bs c = { id := none, previous_scan_time := 0 } := by
  constructor
  · unfold mongoGetFrontier
    rw [h1]
    exact ⟨rfl, rfl⟩
  · unfold basicGetFrontier
    rw [h2]

/-- C8 witness: both stores empty, channel 1. -/
theorem c8_frontier_default_witness :
    ((mongoGetFrontier ⟨[], []⟩ 1).id.getD none = none ∧
     (mongoGetFrontier ⟨[], []⟩ 1).previous_scan_time.getD 0 = 0) ∧
    basicGetFrontier ⟨[], []⟩ 1 = { id := none, previous_scan_time := 0 } :=
  c8_frontier_default ⟨[], []⟩ ⟨[], []⟩ 1 rfl rfl

/-- A message whose conversion raises (`ConversionError`). -/
def badMsg : Message := ⟨2, 5, .default, 1, "", 0, none, none, true⟩

/-- A batch of two convertible messages around one malformed message. -/
def mixedBatch : List Message := [mkMsg 1, badMsg, mkMsg 3]

/-- C9 counterexample — the claim as stated is FALSE: the list
comprehension in `DataManager.save_messages` has no per-item exception
handling, so when the conversion of message 2 raises, the whole batch save
raises before the store is called — messages 1 and 3 of the same batch are
NOT converted-and-saved (the carried-out state is the untouched start
state, in which neither exists). -/
theorem c9_conversion_error_not_isolated :
    dmEmptyChan.save_messages mixedBatch false = .exn .conversionError dmEmptyChan ∧
    dmEmptyChan.message_exists 1 = false ∧
    dmEmptyChan.message_exists 3 = false := by decide

/-- C9 amended — Conversion errors abort the whole batch: if any
non-marker item of a batch is malformed, `save_messages` raises
`ConversionError` with the `DataManager` state unchanged — no item of the
batch (malformed or not) is saved, and the frontier is untouched. -/
theorem c9_conversion_error_aborts_batch (dm : DM) (batch : List Message) (uf : Bool)
    (h : (batch.filter fun m => m.mtype != MessageType.thread_created).any
        (fun m => m.malformed) = true) :
    dm.save_messages batch uf = .exn .conversionError dm :=
  save_messages_conv_err dm batch uf (mapConvert_err _ h)

/-- C9 witness: the amended statement at the concrete mixed batch. -/
theorem c9_conversion_error_aborts_batch_witness :
    dmEmptyChan.save_messages mixedBatch false = .exn .conversionError dmEmptyChan :=
  c9_conversion_error_aborts_batch dmEmptyChan mixedBatch false (by decide)

theorem find?_addReply_list (parent child : Nat) :
    ∀ l : List MongoDoc,
      (upsertBy (fun d => d.message_id == parent) (addReplyDoc child)
        (insertReplyStub parent child) l).find? (fun d => d.message_id == parent) =
      some (match l.find? (fun d => d.message_id == parent) with
            | some d => addReplyDoc child d
            | none => insertReplyStub parent child) := by
  intro l
  induction l with
  | nil => simp [upsertBy, List.find?, insertReplyStub]
  | cons x xs ih =>
    by_cases hx : (x.message_id == parent) = true
    · simp [upsertBy, hx, List.find?, addReplyDoc]
    · simp only [Bool.not_eq_true] at hx
      simp [upsertBy, hx, List.find?, ih]

theorem find?_upsertMessage_ne (u : MongoUpdater) (i : Nat)
    (hne : ¬ u.setPart.message_id = i) :
    ∀ l : List MongoDoc,
      (upsertBy (fun d => d.message_id == u.setPart.message_id) (applyUpdater u)
        (insertDoc u) l).find? (fun d => d.message_id == i) =
      l.find? (fun d => d.message_id == i) := by
  have hins : ((insertDoc u).message_id == i) = false := by
    simp [insertDoc, hne]
  intro l
  induction l with
  | nil => simp [upsertBy, List.find?, hins]
  | cons x xs ih =>
    by_cases hx : (x.message_id == u.setPart.message_id) = true
    · have hxi : (x.message_id == i) = false := by
        have hxe : x.message_id = u.setPart.message_id := by simpa using hx
        simp [hxe, hne]
      have hgi : ((applyUpdater u x).message_id == i) = false := hxi
      simp [upsertBy, hx, List.find?, hxi, hgi]
    · simp only [Bool.not_eq_true] at hx
      by_cases hq : (x.message_id == i) = true
      · simp [upsertBy, hx, List.find?, hq]
      · simp only [Bool.not_eq_true] at hq
        simp [upsertBy, hx, List.find?, hq, ih]

/-- The one-step equation of the catch-up loop on a non-empty delivery. -/
theorem scrapeUnseenLoop_cons (dm : DM) (m : Message) (rest acc : List Message) :
    scrapeUnseenLoop dm (m :: rest) acc =
      if dm.message_exists m.message_id then Res.ok dm
      else scrapeUnseenLoop dm rest (acc ++ [m]) := rfl

/-- C10 — Phantom reply parent: saving a message whose `reply_to` names a
parent absent from the store makes the reply upsert insert a stub document
keyed by the parent identifier, holding only the `replies` set (no `"$set"`
fields, no content); `message_exists(parent)` is true afterwards even
though the parent itself was never saved, and since the catch-up loop of
`_scrape_unseen_only` returns at the first already-known identifier, the
stub stops a catch-up pass at an item whose content was never stored. -/
theorem c10_phantom_reply_parent (dm : DM) (child : Message) (p : Nat)
    (hrt : child.reply_to = some p)
    (hmt : child.mtype ≠ MessageType.thread_created)
    (hmf : child.malformed = false)
    (hne : ¬ p = child.message_id)
    (habs : ∀ d ∈ dm.store.messages, ¬ d.message_id = p) :
    ∃ dm1, dm.save_messages [child] false = Res.ok dm1 ∧
      dm1.message_exists p = true ∧
      dm1.store.messages.find? (fun d => d.message_id == p) =
        some (insertReplyStub p child.message_id) ∧
      (∀ (pm : Message) (rest acc : List Message), pm.message_id = p →
        scrapeUnseenLoop dm1 (pm :: rest) acc = Res.ok dm1) := by
  have hconv : mapConvert ([child].filter fun m => m.mtype != MessageType.thread_created) =
      .ok [convertMessage child] := by
    have hfilter : [child].filter (fun m => m.mtype != MessageType.thread_created) =
        [child] := by simp [hmt]
    rw [hfilter]
    exact mapConvert_ok [child] (by
      intro m hm
      rw [List.mem_singleton] at hm
      subst hm
      exact hmf)
  have hsave := save_messages_false_eq dm [child] [convertMessage child] child hconv
    (List.cons_ne_nil _ _) rfl
  have hrt2 : (convertMessage child).setPart.reply_to = some p := hrt
  have hne2 : ¬ (convertMessage child).setPart.message_id = p := Ne.symm hne
  have hnone : dm.store.messages.find? (fun d => d.message_id == p) = none :=
    List.find?_eq_none.mpr (fun x hx => by simpa using habs x hx)
  have hmsgs : mongoWriteMessages dm.store.messages [convertMessage child] =
      upsertBy (fun d => d.message_id == p) (addReplyDoc child.message_id)
        (insertReplyStub p child.message_id)
        (upsertBy (fun d => d.message_id == (convertMessage child).setPart.message_id)
          (applyUpdater (convertMessage child)) (insertDoc (convertMessage child))
          dm.store.messages) := by
    rw [mongoWriteMessages_single, hrt2]
    rfl
  have hfind : (mongoWriteMessages dm.store.messages [convertMessage child]).find?
      (fun d => d.message_id == p) = some (insertReplyStub p child.message_id) := by
    rw [hmsgs, find?_addReply_list, find?_upsertMessage_ne (convertMessage child) p hne2,
      hnone]
  have hex : ((mongoWriteMessages dm.store.messages [convertMessage child]).find?
      (fun d => d.message_id == p)).isSome = true := by
    rw [hfind]
    rfl
  refine ⟨_, hsave, hex, hfind, ?_⟩
  intro pm rest acc hpm
  have hex2 : DM.message_exists
      { channels := dm.channels, store :=
        { dm.store with messages := mongoWriteMessages dm.store.messages [convertMessage child] } }
      pm.message_id = true := by
    rw [hpm]
    exact hex
  rw [scrapeUnseenLoop_cons, hex2]
  simp

/-- A reply message: identifier 1 on channel 5, replying to the absent
parent 7. -/
def replyMsg : Message := ⟨1, 5, .default, 1, "hi", 0, none, some 7, false⟩

/-- C10 witness: saving `replyMsg` into the empty store creates the stub
for parent 7, and any subsequently delivered item with identifier 7 stops
the catch-up loop immediately. -/
theorem c10_phantom_reply_parent_witness :
    ∃ dm1, dmEmptyChan.save_messages [replyMsg] false = Res.ok dm1 ∧
      dm1.message_exists 7 = true ∧
      dm1.store.messages.find? (fun d => d.message_id == 7) =
        some (insertReplyStub 7 replyMsg.message_id) ∧
      (∀ (pm : Message) (rest acc : List Message), pm.message_id = 7 →
        scrapeUnseenLoop dm1 (pm :: rest) acc = Res.ok dm1) :=
  c10_phantom_reply_parent dmEmptyChan replyMsg 7 rfl (by decide) rfl (by decide) (by decide)
